import Mathlib

/-!
Verification of the SynergyForge core (Firebase functions, `functions/lib/index.js`):
token lifecycle (`getAppAccessToken`), request proxy (`msfProxy`), and the paginated
sync/ETL pipeline (`syncGameRef`) with its inline character normalizer.

JavaScript values coming from `JSON.parse` are modelled by the `Json` type below.
Numbers are modelled as integers (every numeric literal appearing in the code and in
the scenarios of interest is an integer); `NaN` is modelled as `Option.none` where it
can arise.  The HTTP/cookie/storage layers are collaborator interfaces: each modelled
operation receives the collaborator's responses as explicit arguments and reports its
persistence effects as an explicit list.
-/

namespace SynergyForge

/-- A JSON value, as produced by `JSON.parse` / `r.json()`. -/
inductive Json where
  | null
  | bool (b : Bool)
  | num (n : Int)
  | str (s : String)
  | arr (items : List Json)
  | obj (fields : List (String × Json))
deriving Repr

/-- Errors a modelled operation can throw. -/
inductive JsErr where
  /-- A JavaScript `TypeError` (property access on `null`, `.map` on a non-array, ...). -/
  | typeError
  /-- `fetchJSON`/token fetch rejected or returned a non-ok HTTP status. -/
  | httpError (status : Nat)
  /-- `JSON.parse` failed on the token response body. -/
  | parseError
  /-- "Hydra token missing fields" (the spec's TokenShapeError). -/
  | missingFields
deriving Repr, DecidableEq

/-- First-match lookup of a key in a JS object's field list. -/
def lookupField : List (String × Json) → String → Option Json
  | [], _ => none
  | (k, v) :: rest, key => if k = key then some v else lookupField rest key

/-- Property access `v.k`: throws on `null`, yields `undefined` (`none`) on
primitives and arrays, looks up the field on objects. -/
def Json.getField : Json → String → Except JsErr (Option Json)
  | .null, _ => .error .typeError
  | .obj fs, k => .ok (lookupField fs k)
  | _, _ => .ok none

/-- Optional chaining `v?.k`: like `getField` but yields `undefined` on `null`. -/
def jsOptChain (j : Json) (k : String) : Option Json :=
  match j with
  | .null => none
  | .obj fs => lookupField fs k
  | _ => none

/-- JS truthiness of a value. -/
def jsTruthy : Json → Bool
  | .null => false
  | .bool b => b
  | .num n => n != 0
  | .str s => s != ""
  | .arr _ => true
  | .obj _ => true

/-- JS truthiness of a possibly-`undefined` value. -/
def jsOptTruthy : Option Json → Bool
  | none => false
  | some j => jsTruthy j

/-- Nullish coalescing `v ?? d` on a possibly-`undefined` value. -/
def nullish (v : Option Json) (d : Json) : Json :=
  match v with
  | some .null => d
  | some x => x
  | none => d

mutual

/-- JS `String(v)` coercion.  Arrays stringify as their elements joined by commas
(`null` elements joining as the empty string); objects as "[object Object]". -/
def jsToString : Json → String
  | .null => "null"
  | .bool true => "true"
  | .bool false => "false"
  | .num n => toString n
  | .str s => s
  | .obj _ => "[object Object]"
  | .arr xs => joinArr xs

/-- `Array.prototype.join(",")` as used by array-to-string coercion. -/
def joinArr : List Json → String
  | [] => ""
  | x :: xs =>
      (match x with
       | .null => ""
       | y => jsToString y) ++
      (match xs with
       | [] => ""
       | _ :: _ => "," ++ joinArr xs)

end

/-- JS `Number(s)` on a string, restricted to optionally signed integer literals
(the only string numerals the scenarios exercise); whitespace-only is 0, anything
else is NaN (`none`). -/
def strToNumber (s : String) : Option Int :=
  let t := s.trim
  if t = "" then some 0
  else if t.startsWith "-" then
    (strDigits (t.drop 1)).map (fun n => -(n : Int))
  else if t.startsWith "+" then
    (strDigits (t.drop 1)).map (fun n => (n : Int))
  else
    (strDigits t).map (fun n => (n : Int))
where
  /-- Parse a nonempty all-digit string. -/
  strDigits (u : String) : Option Nat :=
    if u = "" then none
    else if u.all Char.isDigit then some u.toNat!
    else none

/-- JS `ToNumber(v)`; `none` is NaN. -/
def jsToNumber : Json → Option Int
  | .null => some 0
  | .bool true => some 1
  | .bool false => some 0
  | .num n => some n
  | .str s => strToNumber s
  | .arr xs => strToNumber (jsToString (.arr xs))
  | .obj _ => none

/-- JS `v.length`: array length, string length (code points; the scenarios stay in
the BMP where this matches UTF-16 units), an object's own `length` field, otherwise
`undefined`. -/
def jsLength : Json → Option Json
  | .arr xs => some (.num xs.length)
  | .str s => some (.num s.length)
  | .obj fs => lookupField fs "length"
  | _ => none

/-! ## Normalizer

The inline character normalizer of `syncGameRef` (index.js lines 223-238):

  out.id = String(c.id ?? "");
  out.name = c.name ?? "";                       -- note: no String() coercion
  if (c.imageUrl) out.imageUrl = String(c.imageUrl);
  out.traits = Array.isArray(c.traits) ? c.traits.map(String) : [];
  if (c.faction) out.faction = String(c.faction);
  if (c.role) out.role = String(c.role);
  if (c.stats && typeof c.stats === "object") out.stats = c.stats;
-/

/-- A normalized character record.  `name` and `stats` are carried through without
coercion, so they keep their raw JSON type. -/
structure NormChar where
  id : String
  name : Json
  imageUrl : Option String
  traits : List String
  faction : Option String
  role : Option String
  stats : Option Json
deriving Repr

/-- `if (c.f) out.f = String(c.f)`: include the stringified field only when truthy. -/
def truthyString (f : Option Json) : Option String :=
  match f with
  | some v => if jsTruthy v then some (jsToString v) else none
  | none => none

/-- The normalizer.  Property access on a `null` record throws (`TypeError`), which
the model surfaces as `Except.error`. -/
def normalizeChar (c : Json) : Except JsErr NormChar := do
  let idF ← c.getField "id"
  let nameF ← c.getField "name"
  let imageF ← c.getField "imageUrl"
  let traitsF ← c.getField "traits"
  let factionF ← c.getField "faction"
  let roleF ← c.getField "role"
  let statsF ← c.getField "stats"
  .ok {
    id := jsToString (nullish idF (.str "")),
    name := nullish nameF (.str ""),
    imageUrl := truthyString imageF,
    traits := (match traitsF with
               | some (.arr xs) => xs.map jsToString
               | _ => []),
    faction := truthyString factionF,
    role := truthyString roleF,
    stats := (match statsF with
              | some (.obj fs) => some (.obj fs)
              | some (.arr xs) => some (.arr xs)
              | _ => none) }

/-! ## Token lifecycle (`getAppAccessToken`, index.js lines 72-112)

The module-level `cachedToken` variable and the clock are passed explicitly; the
single network exchange a cold call performs is supplied as a `TokenEndpoint`
value describing how the token endpoint answered. -/

/-- The module-level `cachedToken` record.  `access_token` keeps the raw JSON value
cached from the response; `expiresAt` is `Date.now() + Number(expires_in) * 1000`,
`none` when that multiplication produced NaN. -/
structure CachedToken where
  access_token : Json
  expiresAt : Option Int
deriving Repr

/-- How the token endpoint answered one POST. -/
inductive TokenEndpoint where
  /-- Non-ok HTTP status: "Hydra token error". -/
  | httpErr (status : Nat)
  /-- Body was not valid JSON: "Hydra token parse error". -/
  | parseErr
  /-- Body decoded to this JSON value. -/
  | json (j : Json)
deriving Repr

/-- The observable part of the value `getAppAccessToken` resolves with: callers
only read `access_token` and `expires_in`. -/
structure TokenResult where
  access_token : Json
  expires_in : Json
deriving Repr

/-- One call's outcome: the settled value, the cache afterwards, and how many
network calls to the token endpoint were issued (0 or 1). -/
structure TokenStep where
  result : Except JsErr TokenResult
  cache : Option CachedToken
  fetches : Nat

/-- The guard `cachedToken && Date.now() < cachedToken.expiresAt - 60000`
(a NaN `expiresAt` compares false). -/
def cacheFresh (now : Int) : Option CachedToken → Bool
  | none => false
  | some ct =>
    match ct.expiresAt with
    | some e => now < e - 60000
    | none => false

/-- The fresh-acquisition path: POST, status check, JSON.parse, shape check
(`!json?.access_token || !json?.expires_in`), then cache and return the decoded
object unchanged. -/
def freshAcquire (now : Int) (oldCache : Option CachedToken) (resp : TokenEndpoint) :
    TokenStep :=
  match resp with
  | .httpErr s => { result := .error (.httpError s), cache := oldCache, fetches := 1 }
  | .parseErr => { result := .error .parseError, cache := oldCache, fetches := 1 }
  | .json j =>
    let accessF := jsOptChain j "access_token"
    let expiresF := jsOptChain j "expires_in"
    if jsOptTruthy accessF && jsOptTruthy expiresF then
      let accessV := nullish accessF .null
      let expiresV := nullish expiresF .null
      { result := .ok { access_token := accessV, expires_in := expiresV },
        cache := some { access_token := accessV,
                        expiresAt := (jsToNumber expiresV).map (fun n => now + n * 1000) },
        fetches := 1 }
    else
      { result := .error .missingFields, cache := oldCache, fetches := 1 }

/-- `getAppAccessToken`: serve the cached token when still valid with a 60 s safety
window (re-deriving `expires_in` as `max 60 (floor((expiresAt - now) / 1000))`),
otherwise acquire afresh. -/
def getAppAccessToken (now : Int) (cache : Option CachedToken) (resp : TokenEndpoint) :
    TokenStep :=
  match cache with
  | some ct =>
    if cacheFresh now (some ct) then
      { result := .ok { access_token := ct.access_token,
                        expires_in := .num (max 60 (Int.fdiv ((ct.expiresAt.getD 0) - now) 1000)) },
        cache := some ct,
        fetches := 0 }
    else freshAcquire now (some ct) resp
  | none => freshAcquire now cache resp

/-- A sequence of `getAppAccessToken` calls, threading the cache and summing the
network calls.  Each list entry is the clock reading at that call and the answer
the token endpoint would give if consulted. -/
def runTokenCalls : Option CachedToken → List (Int × TokenEndpoint) →
    List (Except JsErr TokenResult) × Option CachedToken × Nat
  | cache, [] => ([], cache, 0)
  | cache, (now, resp) :: rest =>
    let s := getAppAccessToken now cache resp
    let (rs, c, n) := runTokenCalls s.cache rest
    (s.result :: rs, c, s.fetches + n)

/-! ## Token request construction (index.js lines 78-89)

`useBasic = Boolean(MSF_CLIENT_ID.value() && MSF_CLIENT_SECRET.value())`; the form
always carries `grant_type` and `scope`, and either a Basic Authorization header is
set (base64 of "id:secret" over UTF-8 bytes, as `Buffer.from(...).toString("base64")`)
or the credentials are appended to the form body. -/

/-- UTF-8 encoding of one code point. -/
def utf8Bytes (c : Char) : List Nat :=
  let n := c.toNat
  if n < 0x80 then [n]
  else if n < 0x800 then
    [0xC0 ||| (n >>> 6), 0x80 ||| (n &&& 0x3F)]
  else if n < 0x10000 then
    [0xE0 ||| (n >>> 12), 0x80 ||| ((n >>> 6) &&& 0x3F), 0x80 ||| (n &&& 0x3F)]
  else
    [0xF0 ||| (n >>> 18), 0x80 ||| ((n >>> 12) &&& 0x3F),
     0x80 ||| ((n >>> 6) &&& 0x3F), 0x80 ||| (n &&& 0x3F)]

/-- The standard base64 alphabet. -/
def b64Char (n : Nat) : Char :=
  "ABCDEFGHIJKLMNOPQRSTUVWXYZabcdefghijklmnopqrstuvwxyz0123456789+/".toList.getD n 'A'

/-- Base64-encode a byte list, 3 bytes at a time, '='-padded. -/
def b64Chunks : List Nat → List Char
  | [] => []
  | [a] => [b64Char (a >>> 2), b64Char ((a &&& 3) <<< 4), '=', '=']
  | [a, b] => [b64Char (a >>> 2), b64Char (((a &&& 3) <<< 4) ||| (b >>> 4)),
               b64Char ((b &&& 15) <<< 2), '=']
  | a :: b :: c :: rest =>
    b64Char (a >>> 2) :: b64Char (((a &&& 3) <<< 4) ||| (b >>> 4)) ::
    b64Char (((b &&& 15) <<< 2) ||| (c >>> 6)) :: b64Char (c &&& 63) :: b64Chunks rest

/-- `Buffer.from(s).toString("base64")`. -/
def base64Encode (s : String) : String :=
  String.mk (b64Chunks (s.toList.flatMap utf8Bytes))

/-- The parts of the token request that depend on the credential transport policy:
the optional Authorization header and the ordered form fields. -/
structure TokenRequest where
  authHeader : Option String
  form : List (String × String)
deriving Repr, DecidableEq

/-- Build the token request from the configured client id and secret. -/
def buildTokenRequest (clientId clientSecret : String) : TokenRequest :=
  let useBasic := clientId != "" && clientSecret != ""
  if useBasic then
    { authHeader := some ("Basic " ++ base64Encode (clientId ++ ":" ++ clientSecret)),
      form := [("grant_type", "client_credentials"), ("scope", "openid")] }
  else
    { authHeader := none,
      form := [("grant_type", "client_credentials"), ("scope", "openid"),
               ("client_id", clientId), ("client_secret", clientSecret)] }

/-! ## Request proxy (`msfProxy`, index.js lines 144-194)

The cookie header is parsed by the collaborator `getCookie`; its result (the
`msf_at` value, or `none` when the header carries no such cookie) is the
`callerToken` argument.  The handler first checks the path allow-list
(regex `^game\/v1\/`), then the cookie, and only then forwards one upstream GET. -/

/-- What `msfProxy` does with a request: respond 400, respond 401, or issue the
single upstream call (relaying its status and body afterwards). -/
inductive ProxyOutcome where
  | badRequest
  | unauthorized
  | forward (token : String) (path : String)
deriving Repr, DecidableEq

/-- `/^game\/v1\//.test(path)`: the path starts with the literal "game/v1/". -/
def pathAllowed (path : String) : Bool :=
  "game/v1/".toList.isPrefixOf path.toList

/-- The proxy's decision logic.  `!token` treats both a missing cookie and an
empty cookie value as absent. -/
def msfProxy (path : String) (callerToken : Option String) : ProxyOutcome :=
  if !pathAllowed path then .badRequest
  else
    match callerToken with
    | none => .unauthorized
    | some t => if t = "" then .unauthorized else .forward t path

/-! ## Paginated character collection (`syncGameRef` loop, index.js lines 214-247)

  const perPage = 200;
  let page = 1; let allChars = []; let perTotal = Infinity;
  while (allChars.length < perTotal) {
    const resp = await fetchJSON(...page...);
    const items = Array.isArray(resp) ? resp : (resp.items ?? []);
    const normalized = items.map(normalize);
    allChars = allChars.concat(normalized);
    const meta = resp?.meta ?? \x7b\x7d;
    perTotal = meta.perTotal ?? (items.length < perPage ? allChars.length
                                                        : allChars.length + perPage);
    if (items.length < perPage) break;
    page += 1;
    if (page > 200) break;
  }

The upstream is a function from page number to how `fetchJSON` settled for that
page.  The recursion is driven by a fuel argument; `pageLoopAux_fuel_stable` shows
any fuel of at least `201 - page` gives the same result, so the fuel exit is never
taken and the fuelled function is exactly the JS loop. -/

/-- How one `fetchJSON` call settled: thrown (non-ok status) or a decoded body. -/
inductive FetchResult where
  | err (status : Nat)
  | ok (body : Json)
deriving Repr

/-- `const perPage = 200`. -/
def perPage : Nat := 200

/-- The `perTotal` loop variable: `Infinity` initially, afterwards whatever JSON
value the update expression produced. -/
inductive PerTotal where
  | infinity
  | js (v : Json)
deriving Repr

/-- The loop guard `allChars.length < perTotal` (JS `<` coerces the right side to a
number; a NaN comparison is false). -/
def ltPerTotal (n : Nat) : PerTotal → Bool
  | .infinity => true
  | .js v =>
    match jsToNumber v with
    | none => false
    | some m => (n : Int) < m

/-- `items.map(normalize)`: normalize each raw item in order; the first thrown
error aborts the whole map. -/
def mapNormalize : List Json → Except JsErr (List NormChar)
  | [] => .ok []
  | x :: xs =>
    match normalizeChar x with
    | .error e => .error e
    | .ok n =>
      match mapNormalize xs with
      | .error e => .error e
      | .ok rest => .ok (n :: rest)

/-- The straight-line part of one loop iteration on a fetched body: extract `items`
(the body itself when it is an array, else its `items` field defaulting to `[]`;
calling `.map` on a non-array throws), normalize them, and read `meta.perTotal`.
Returns the normalized items, the raw item count, and the `perTotal` field. -/
def pageStep (resp : Json) : Except JsErr (List NormChar × Nat × Option Json) :=
  let itemsE : Except JsErr Json :=
    match resp with
    | .arr _ => .ok resp
    | _ =>
      match resp.getField "items" with
      | .error e => .error e
      | .ok f => .ok (nullish f (.arr []))
  match itemsE with
  | .error e => .error e
  | .ok (.arr xs) =>
    match mapNormalize xs with
    | .error e => .error e
    | .ok normalized =>
      let meta := nullish (jsOptChain resp "meta") (.obj [])
      .ok (normalized, xs.length, jsOptChain meta "perTotal")
  | .ok _ => .error .typeError

/-- The pagination loop.  Returns the loop's outcome (the accumulated normalized
characters and the final value of `page`) together with the ordered list of page
numbers actually fetched.  The first argument is fuel bounding the recursion
depth; see `pageLoopAux_fuel_stable`. -/
def pageLoopAux (upstream : Nat → FetchResult) :
    Nat → Nat → List NormChar → PerTotal → List Nat →
    Except JsErr (List NormChar × Nat) × List Nat
  | 0, page, acc, _, fetched => (.ok (acc, page), fetched)
  | fuel + 1, page, acc, perTotal, fetched =>
    if ltPerTotal acc.length perTotal then
      match upstream page with
      | .err s => (.error (.httpError s), fetched ++ [page])
      | .ok resp =>
        match pageStep resp with
        | .error e => (.error e, fetched ++ [page])
        | .ok (normalized, rawCount, perTotalF) =>
          let acc2 := acc ++ normalized
          let perTotal2 := PerTotal.js (nullish perTotalF
            (.num (if rawCount < perPage then (acc2.length : Int)
                   else (acc2.length : Int) + perPage)))
          if rawCount < perPage then (.ok (acc2, page), fetched ++ [page])
          else if page + 1 > 200 then (.ok (acc2, page + 1), fetched ++ [page])
          else pageLoopAux upstream fuel (page + 1) acc2 perTotal2 (fetched ++ [page])
    else (.ok (acc, page), fetched)

/-- The loop as `syncGameRef` runs it: from page 1 with an empty accumulator and
`perTotal = Infinity`.  Fuel 201 exceeds the largest possible iteration count. -/
def pageLoop (upstream : Nat → FetchResult) :
    Except JsErr (List NormChar × Nat) × List Nat :=
  pageLoopAux upstream 201 1 [] .infinity []

/-! ## Sync orchestrator (`syncGameRef`, index.js lines 201-265) -/

/-- A persistence effect: a storage artifact write, or a Firestore document `set`
(with its merge flag). -/
inductive SyncOp where
  | storageWrite (path : String) (payload : Json)
  | firestoreSet (collection doc : String) (traitsCount : Json) (charsCount : Nat)
      (merge : Bool)
deriving Repr

/-- `JSON.stringify`'s view of a normalized character: fields in insertion order,
absent optional fields omitted. -/
def normCharToJson (c : NormChar) : Json :=
  .obj ([("id", .str c.id), ("name", c.name)]
    ++ (match c.imageUrl with
        | some u => [("imageUrl", Json.str u)]
        | none => [])
    ++ [("traits", .arr (c.traits.map .str))]
    ++ (match c.faction with
        | some f => [("faction", Json.str f)]
        | none => [])
    ++ (match c.role with
        | some r => [("role", Json.str r)]
        | none => [])
    ++ (match c.stats with
        | some s => [("stats", s)]
        | none => []))

/-- The characters artifact body: the normalized items plus the meta block built
from the loop's final state. -/
def charactersPayload (chars : List NormChar) (page : Nat) : Json :=
  .obj [("items", .arr (chars.map normCharToJson)),
        ("meta", .obj [("perTotal", .num chars.length),
                       ("perPage", .num perPage),
                       ("page", .num page)])]

/-- `Array.isArray(traits) ? traits.length : (traits.items?.length ?? 0)` — note
the unguarded `traits.items` access throws on a `null` traits body. -/
def traitsCountOf (traits : Json) : Except JsErr Json :=
  match traits with
  | .arr xs => .ok (.num xs.length)
  | _ =>
    match traits.getField "items" with
    | .error e => .error e
    | .ok none => .ok (.num 0)
    | .ok (some .null) => .ok (.num 0)
    | .ok (some v) => .ok (nullish (jsLength v) (.num 0))

/-- The collaborator responses one sync run can consume: the clock, the token cache
at entry, the token endpoint's answer, the traits fetch, and the characters fetch
per page. -/
structure SyncEnv where
  now : Int
  tokenCache : Option CachedToken
  tokenResp : TokenEndpoint
  traitsResp : FetchResult
  charsPage : Nat → FetchResult

/-- One sync run's observables: the response (the two counts on success), the
ordered persistence effects, and the token cache afterwards. -/
structure SyncOutcome where
  response : Except JsErr (Json × Nat)
  ops : List SyncOp
  cache : Option CachedToken

/-- `syncGameRef`: token, traits fetch, character pagination, then the two artifact
writes followed by the metadata upsert (`merge: true`); any thrown error settles
the run at that point with the effects already performed. -/
def syncGameRef (env : SyncEnv) : SyncOutcome :=
  let tok := getAppAccessToken env.now env.tokenCache env.tokenResp
  match tok.result with
  | .error e => { response := .error e, ops := [], cache := tok.cache }
  | .ok _ =>
    match env.traitsResp with
    | .err s => { response := .error (.httpError s), ops := [], cache := tok.cache }
    | .ok traits =>
      match (pageLoop env.charsPage).1 with
      | .error e => { response := .error e, ops := [], cache := tok.cache }
      | .ok (allChars, page) =>
        let ops1 := [SyncOp.storageWrite "datasets/traits.json" traits,
                     SyncOp.storageWrite "datasets/characters.json"
                       (charactersPayload allChars page)]
        match traitsCountOf traits with
        | .error e => { response := .error e, ops := ops1, cache := tok.cache }
        | .ok tc =>
          { response := .ok (tc, allChars.length),
            ops := ops1 ++ [SyncOp.firestoreSet "meta" "datasets" tc allChars.length true],
            cache := tok.cache }

/-! ## Shared lemmas -/

/-- The normalizer succeeds on every non-`null` record, and passes the raw `name`
field through uncoerced (defaulting to `""` when absent or `null`). -/
theorem normalizeChar_ok (c : Json) (h : c ≠ Json.null) :
    ∃ out, normalizeChar c = Except.ok out ∧
      out.name = nullish (jsOptChain c "name") (Json.str "") := by
  cases c with
  | null => exact absurd rfl h
  | bool b => exact ⟨_, rfl, rfl⟩
  | num n => exact ⟨_, rfl, rfl⟩
  | str s => exact ⟨_, rfl, rfl⟩
  | arr xs => exact ⟨_, rfl, rfl⟩
  | obj fs => exact ⟨_, rfl, rfl⟩

/-- Normalizing a list of non-`null` records succeeds and preserves the count. -/
theorem mapNormalize_ok (l : List Json) (h : ∀ c ∈ l, c ≠ Json.null) :
    ∃ ns, mapNormalize l = Except.ok ns ∧ ns.length = l.length := by
  induction l with
  | nil => exact ⟨[], rfl, rfl⟩
  | cons x xs ih =>
    obtain ⟨out, hout, -⟩ := normalizeChar_ok x (h x (by simp))
    obtain ⟨ns, hns, hlen⟩ := ih (fun c hc => h c (by simp [hc]))
    exact ⟨out :: ns, by simp [mapNormalize, hout, hns], by simp [hlen]⟩

/-- A page body that is a plain JSON array of records steps to its normalization,
with no declared `perTotal`. -/
theorem pageStep_arr (xs : List Json) (ns : List NormChar)
    (h : mapNormalize xs = Except.ok ns) :
    pageStep (.arr xs) = Except.ok (ns, xs.length, none) := by
  simp [pageStep, h, jsOptChain, nullish, lookupField]

/-! ## C1: normalizer totality and output shape -/

/-- C1, counterexample.  The claim says the Normalizer never throws for any JSON
value and always yields a string `name`.  But a `null` raw record throws a
`TypeError` (property access `c.id` on `null`), and a numeric `name` field is
passed through without coercion, so the output `name` is the number 7, not a
string. -/
theorem C1_counterexample :
    normalizeChar Json.null = Except.error JsErr.typeError ∧
    normalizeChar (Json.obj [("name", Json.num 7)]) =
      Except.ok { id := "", name := Json.num 7, imageUrl := none, traits := [],
                  faction := none, role := none, stats := none } :=
  ⟨rfl, rfl⟩

/-- C1, amended.  For every raw character record other than JSON `null`, the
Normalizer returns a record (its `id` is a string and its `traits` a sequence of
strings by construction), and never throws; the `name` field is passed through
uncoerced, defaulting to `""` when absent or `null` — so it is a string only when
the incoming `name` was a string, `null`, or absent. -/
theorem C1_normalizer_amended (c : Json) (h : c ≠ Json.null) :
    ∃ out, normalizeChar c = Except.ok out ∧
      out.name = nullish (jsOptChain c "name") (Json.str "") :=
  normalizeChar_ok c h

/-- C1, witness: the amended theorem applied to a concrete record. -/
theorem C1_witness :
    ∃ out, normalizeChar (Json.obj [("id", Json.num 3), ("name", Json.str "Spidey")]) =
        Except.ok out ∧
      out.name = nullish (jsOptChain (Json.obj [("id", Json.num 3),
        ("name", Json.str "Spidey")]) "name") (Json.str "") :=
  C1_normalizer_amended (Json.obj [("id", Json.num 3), ("name", Json.str "Spidey")])
    (by simp)

/-! ## C2: returned expires_in never below 60 -/

/-- C2, counterexample.  The fresh-acquisition path accepts a token response with
`expires_in = 30` (it is truthy) and returns it unadjusted, so the caller sees
`expires_in = 30 < 60`, contradicting the claim. -/
theorem C2_counterexample :
    (getAppAccessToken 0 none (.json (Json.obj [("access_token", Json.str "abc"),
        ("expires_in", Json.num 30)]))).result =
      Except.ok { access_token := Json.str "abc", expires_in := Json.num 30 } ∧
    (30 : Int) < 60 :=
  ⟨rfl, by norm_num⟩

/-- C2, amended.  Only the cached-token path clamps: whenever the cache is fresh,
the returned `expires_in` is `max 60 (floor((expiresAt - now)/1000))`, hence at
least 60.  On the fresh-acquisition path the upstream `expires_in` field is
returned unadjusted, and can be below 60. -/
theorem C2_token_freshness_amended :
    (∀ (now : Int) (ct : CachedToken) (resp : TokenEndpoint),
      cacheFresh now (some ct) = true →
      ∃ m : Int, (getAppAccessToken now (some ct) resp).result =
          Except.ok { access_token := ct.access_token, expires_in := Json.num m } ∧
        60 ≤ m) ∧
    (∀ (now : Int) (cache : Option CachedToken) (j : Json),
      cacheFresh now cache = false →
      jsOptTruthy (jsOptChain j "access_token") = true →
      jsOptTruthy (jsOptChain j "expires_in") = true →
      (getAppAccessToken now cache (.json j)).result =
        Except.ok { access_token := nullish (jsOptChain j "access_token") Json.null,
                    expires_in := nullish (jsOptChain j "expires_in") Json.null }) := by
  constructor
  · intro now ct resp hfresh
    refine ⟨max 60 (Int.fdiv ((ct.expiresAt.getD 0) - now) 1000), ?_, le_max_left _ _⟩
    simp [getAppAccessToken, hfresh]
  · intro now cache j hstale h1 h2
    cases cache with
    | none => simp [getAppAccessToken, freshAcquire, h1, h2]
    | some ct => simp [getAppAccessToken, hstale, freshAcquire, h1, h2]

/-- C2, witness: the cached path clamps at a concrete input, and the fresh path
returns the upstream value at a concrete input. -/
theorem C2_witness :
    (∃ m : Int,
      (getAppAccessToken 0 (some { access_token := Json.str "tok", expiresAt := some 3600000 })
          .parseErr).result =
        Except.ok { access_token := Json.str "tok", expires_in := Json.num m } ∧
      60 ≤ m) ∧
    (getAppAccessToken 0 none
        (.json (Json.obj [("access_token", Json.str "abc"), ("expires_in", Json.num 1800)]))).result =
      Except.ok { access_token := Json.str "abc", expires_in := Json.num 1800 } := by
  constructor
  · exact C2_token_freshness_amended.1 0
      { access_token := Json.str "tok", expiresAt := some 3600000 } .parseErr (by decide)
  · have h := C2_token_freshness_amended.2 0 none
      (Json.obj [("access_token", Json.str "abc"), ("expires_in", Json.num 1800)]) rfl rfl rfl
    simpa [jsOptChain, lookupField, nullish] using h

/-! ## C3: missing caller token yields 401 -/

/-- C3, counterexample.  The claim says a request with no `msf_at` cookie gets
`Unauthorized` regardless of the requested path.  But the allow-list check runs
first: a disallowed path with no cookie gets `BadRequest` (400), not
`Unauthorized` (401). -/
theorem C3_counterexample :
    msfProxy "admin/v1/delete" none = ProxyOutcome.badRequest ∧
    ProxyOutcome.badRequest ≠ ProxyOutcome.unauthorized :=
  ⟨by decide, by decide⟩

/-- C3, amended.  For a request with no caller token (missing cookie, or an empty
cookie value), the proxy responds 401 when the path passes the allow-list and 400
when it does not — the path check runs first.  In either case the outcome is not
`forward`, so no upstream call is attempted. -/
theorem C3_proxy_unauthorized_amended (path : String) (tok : Option String)
    (habsent : tok = none ∨ tok = some "") :
    msfProxy path tok =
      (if pathAllowed path then ProxyOutcome.unauthorized else ProxyOutcome.badRequest) := by
  rcases habsent with h | h <;> subst h <;>
    cases hp : pathAllowed path <;> simp [msfProxy, hp]

/-- C3, witness: an allowed path with a missing cookie is rejected with 401. -/
theorem C3_witness :
    msfProxy "game/v1/characters" none = ProxyOutcome.unauthorized := by
  have h := C3_proxy_unauthorized_amended "game/v1/characters" none (Or.inl rfl)
  simpa [pathAllowed] using h

/-! ## C4: TokenShapeError characterization -/

/-- C4, counterexample.  The claim says a non-positive `expires_in` (e.g. negative)
raises `TokenShapeError`.  But the shape check is only a truthiness test, so
`expires_in = -5` is accepted: the call succeeds and even caches a token that is
already expired. -/
theorem C4_counterexample :
    (getAppAccessToken 0 none (.json (Json.obj [("access_token", Json.str "abc"),
        ("expires_in", Json.num (-5))]))).result =
      Except.ok { access_token := Json.str "abc", expires_in := Json.num (-5) } ∧
    (-5 : Int) < 0 :=
  ⟨rfl, by norm_num⟩

/-- C4, amended.  On a decoded JSON token response (stale or empty cache), the
acquisition fails with the missing-fields error exactly when the `access_token`
field is falsy (absent, `null`, empty string, 0, `false`) or the `expires_in`
field is falsy.  In particular an absent or empty access token errors, a zero
`expires_in` errors, but a negative `expires_in` is truthy and accepted; a
non-empty access token with a positive `expires_in` never raises it. -/
theorem C4_token_shape_amended (now : Int) (cache : Option CachedToken) (j : Json)
    (hstale : cacheFresh now cache = false) :
    (getAppAccessToken now cache (.json j)).result = Except.error JsErr.missingFields ↔
      (jsOptTruthy (jsOptChain j "access_token") = false ∨
       jsOptTruthy (jsOptChain j "expires_in") = false) := by
  have hfresh : getAppAccessToken now cache (.json j) = freshAcquire now cache (.json j) := by
    cases cache with
    | none => rfl
    | some ct => simp [getAppAccessToken, hstale]
  rw [hfresh]
  cases h1 : jsOptTruthy (jsOptChain j "access_token") <;>
    cases h2 : jsOptTruthy (jsOptChain j "expires_in") <;>
      simp [freshAcquire, h1, h2]

/-- C4, witness: a response whose decoded body lacks both fields raises the
missing-fields error. -/
theorem C4_witness :
    (getAppAccessToken 0 none (.json (Json.obj []))).result =
      Except.error JsErr.missingFields :=
  (C4_token_shape_amended 0 none (Json.obj []) rfl).mpr (Or.inl rfl)

/-! ## C5: token reuse across two warm-cache calls -/

/-- C5, counterexample.  With a cache already holding a token expiring 3600 s out,
two calls within 60 s issue zero network calls — not the "exactly one" the claim
states (both calls are served from the cache). -/
theorem C5_counterexample :
    (runTokenCalls (some { access_token := Json.str "tok", expiresAt := some 3600000 })
        [(0, .parseErr), (59000, .parseErr)]).2.2 = 0 ∧
    (0 : Nat) ≠ 1 :=
  ⟨rfl, by decide⟩

/-- C5, amended.  Given a cache holding a token with `expiresAt = now + 3600` s,
two `acquireOrRefresh` calls within 60 s issue no network call at all, and each
returns the cached token with `expires_in` re-derived as
`max 60 (floor((expiresAt - now)/1000))`. -/
theorem C5_token_reuse_amended (t0 t1 : Int) (tok : Json) (r1 r2 : TokenEndpoint)
    (h01 : t0 ≤ t1) (h1 : t1 ≤ t0 + 60000) :
    (runTokenCalls (some { access_token := tok, expiresAt := some (t0 + 3600000) })
        [(t0, r1), (t1, r2)]).2.2 = 0 ∧
    (runTokenCalls (some { access_token := tok, expiresAt := some (t0 + 3600000) })
        [(t0, r1), (t1, r2)]).1 =
      [Except.ok { access_token := tok, expires_in := Json.num 3600 },
       Except.ok { access_token := tok,
                   expires_in := Json.num (max 60 (Int.fdiv (t0 + 3600000 - t1) 1000)) }] := by
  have g1 : cacheFresh t0 (some { access_token := tok, expiresAt := some (t0 + 3600000) }) = true := by
    simp only [cacheFresh, decide_eq_true_eq]
    omega
  have g2 : cacheFresh t1 (some { access_token := tok, expiresAt := some (t0 + 3600000) }) = true := by
    simp only [cacheFresh, decide_eq_true_eq]
    omega
  have e1 : t0 + 3600000 - t0 = 3600000 := by ring
  constructor
  · simp [runTokenCalls, getAppAccessToken, g1, g2]
  · simp [runTokenCalls, getAppAccessToken, g1, g2, e1]

/-- C5, witness: the amended theorem at a concrete clock. -/
theorem C5_witness :
    (runTokenCalls (some { access_token := Json.str "tok", expiresAt := some (0 + 3600000) })
        [((0 : Int), .parseErr), ((59000 : Int), .parseErr)]).2.2 = 0 ∧
    (runTokenCalls (some { access_token := Json.str "tok", expiresAt := some (0 + 3600000) })
        [((0 : Int), .parseErr), ((59000 : Int), .parseErr)]).1 =
      [Except.ok { access_token := Json.str "tok", expires_in := Json.num 3600 },
       Except.ok { access_token := Json.str "tok",
                   expires_in := Json.num (max 60 (Int.fdiv (0 + 3600000 - 59000) 1000)) }] :=
  C5_token_reuse_amended 0 59000 (Json.str "tok") .parseErr .parseErr
    (by norm_num) (by norm_num)

/-! ## C6: credential transport policy -/

/-- C6, confirmed.  When the configured secret is empty the token request carries
no Authorization header and the form body ends with the `client_id` and
`client_secret` fields; when both id and secret are nonempty a Basic header is
set (base64 of "id:secret") and the body carries only `grant_type` and `scope`. -/
theorem C6_credential_fallback (id secret : String) :
    (secret = "" →
      (buildTokenRequest id secret).authHeader = none ∧
      (buildTokenRequest id secret).form =
        [("grant_type", "client_credentials"), ("scope", "openid"),
         ("client_id", id), ("client_secret", secret)]) ∧
    (id ≠ "" → secret ≠ "" →
      (buildTokenRequest id secret).authHeader =
        some ("Basic " ++ base64Encode (id ++ ":" ++ secret)) ∧
      (buildTokenRequest id secret).form =
        [("grant_type", "client_credentials"), ("scope", "openid")]) := by
  constructor
  · intro h
    subst h
    simp [buildTokenRequest]
  · intro h1 h2
    simp [buildTokenRequest, h1, h2]

/-- C6, witness: both policies at concrete credentials. -/
theorem C6_witness :
    ((buildTokenRequest "id" "").authHeader = none ∧
      (buildTokenRequest "id" "").form =
        [("grant_type", "client_credentials"), ("scope", "openid"),
         ("client_id", "id"), ("client_secret", "")]) ∧
    ((buildTokenRequest "id" "secret").authHeader =
        some ("Basic " ++ base64Encode ("id" ++ ":" ++ "secret")) ∧
      (buildTokenRequest "id" "secret").form =
        [("grant_type", "client_credentials"), ("scope", "openid")]) :=
  ⟨(C6_credential_fallback "id" "").1 rfl,
   (C6_credential_fallback "id" "secret").2 (by decide) (by decide)⟩

/-! ## Pagination loop lemmas -/

/-- A full page (no declared total, `pageSize` items, page cap not reached)
continues the loop on the next page with the heuristic total estimate. -/
theorem pageLoopAux_iterate (u : Nat → FetchResult) (fuel page : Nat)
    (acc : List NormChar) (pt : PerTotal) (f : List Nat) (xs : List Json)
    (ns : List NormChar)
    (hcond : ltPerTotal acc.length pt = true)
    (hu : u page = .ok (.arr xs))
    (hns : mapNormalize xs = .ok ns)
    (hlong : ¬ xs.length < perPage)
    (hpage : ¬ page + 1 > 200) :
    pageLoopAux u (fuel + 1) page acc pt f =
      pageLoopAux u fuel (page + 1) (acc ++ ns)
        (PerTotal.js (Json.num (((acc ++ ns).length : Int) + (perPage : Int))))
        (f ++ [page]) := by
  simp [pageLoopAux, hcond, hu, pageStep_arr xs ns hns, hlong, hpage, nullish]

/-- A short page (fewer than `pageSize` items) ends the loop at once. -/
theorem pageLoopAux_short (u : Nat → FetchResult) (fuel page : Nat)
    (acc : List NormChar) (pt : PerTotal) (f : List Nat) (xs : List Json)
    (ns : List NormChar)
    (hcond : ltPerTotal acc.length pt = true)
    (hu : u page = .ok (.arr xs))
    (hns : mapNormalize xs = .ok ns)
    (hshort : xs.length < perPage) :
    pageLoopAux u (fuel + 1) page acc pt f =
      (Except.ok (acc ++ ns, page), f ++ [page]) := by
  simp [pageLoopAux, hcond, hu, pageStep_arr xs ns hns, hshort]

/-- Every page number the loop ever fetches stays within 1..200, for any upstream
whatsoever. -/
theorem pageLoopAux_pages_bound (u : Nat → FetchResult) :
    ∀ (fuel page : Nat) (acc : List NormChar) (pt : PerTotal) (f : List Nat),
      1 ≤ page → page ≤ 200 → (∀ q ∈ f, 1 ≤ q ∧ q ≤ 200) →
      ∀ q ∈ (pageLoopAux u fuel page acc pt f).2, 1 ≤ q ∧ q ≤ 200 := by
  intro fuel
  induction fuel with
  | zero =>
    intro page acc pt f _ _ hf
    simpa [pageLoopAux] using hf
  | succ n ih =>
    intro page acc pt f hp1 hp2 hf
    have hf2 : ∀ q ∈ f ++ [page], 1 ≤ q ∧ q ≤ 200 := by
      intro q hq
      rcases List.mem_append.mp hq with h | h
      · exact hf q h
      · simp only [List.mem_singleton] at h
        omega
    simp only [pageLoopAux]
    cases hc : ltPerTotal acc.length pt with
    | false => simpa [hc] using hf
    | true =>
      cases hu : u page with
      | err s => simpa [hc, hu] using hf2
      | ok resp =>
        cases hs : pageStep resp with
        | error e => simpa [hc, hu, hs] using hf2
        | ok t =>
          obtain ⟨ns, rc, ptf⟩ := t
          by_cases hrc : rc < perPage
          · simpa [hc, hu, hs, hrc] using hf2
          · by_cases hpg : page + 1 > 200
            · simpa [hc, hu, hs, hrc, hpg] using hf2
            · simpa [hc, hu, hs, hrc, hpg] using
                ih (page + 1) (acc ++ ns)
                  (PerTotal.js (nullish ptf
                    (Json.num (if rc < perPage then ((acc ++ ns).length : Int)
                               else ((acc ++ ns).length : Int) + perPage))))
                  (f ++ [page]) (by omega) (by omega) hf2

/-- The loop's result does not depend on the fuel once the fuel covers the pages
remaining below the hard cap: the fuel exit is never taken. -/
theorem pageLoopAux_fuel_stable (u : Nat → FetchResult) :
    ∀ (f1 f2 page : Nat) (acc : List NormChar) (pt : PerTotal) (f : List Nat),
      page ≤ 200 → 201 - page ≤ f1 → 201 - page ≤ f2 →
      pageLoopAux u f1 page acc pt f = pageLoopAux u f2 page acc pt f := by
  intro f1
  induction f1 with
  | zero =>
    intro f2 page acc pt f hp h1 h2
    omega
  | succ n ih =>
    intro f2 page acc pt f hp h1 h2
    cases f2 with
    | zero => omega
    | succ m =>
      simp only [pageLoopAux]
      cases hc : ltPerTotal acc.length pt with
      | false => simp [hc]
      | true =>
        cases hu : u page with
        | err s => simp [hc, hu]
        | ok resp =>
          cases hs : pageStep resp with
          | error e => simp [hc, hu, hs]
          | ok t =>
            obtain ⟨ns, rc, ptf⟩ := t
            by_cases hrc : rc < perPage
            · simp [hc, hu, hs, hrc]
            · by_cases hpg : page + 1 > 200
              · simp [hc, hu, hs, hrc, hpg]
              · simpa [hc, hu, hs, hrc, hpg] using
                  ih m (page + 1) (acc ++ ns)
                    (PerTotal.js (nullish ptf
                      (Json.num (if rc < perPage then ((acc ++ ns).length : Int)
                                 else ((acc ++ ns).length : Int) + perPage))))
                    (f ++ [page]) (by omega) (by omega) (by omega)

/-! ## C7: pagination termination on a short page -/

/-- C7, confirmed.  For any upstream whose pages 1, 2, 3 are arrays of raw
character records (non-`null` items) of sizes 200, 200 and 47, the loop fetches
exactly pages 1, 2, 3 in order, accumulates exactly 447 normalized items in fetch
order, and stops the moment the short page arrives (the final page counter is
still 3). -/
theorem C7_pagination_normal (upstream : Nat → FetchResult) (p1 p2 p3 : List Json)
    (h1 : upstream 1 = .ok (.arr p1)) (h2 : upstream 2 = .ok (.arr p2))
    (h3 : upstream 3 = .ok (.arr p3))
    (l1 : p1.length = 200) (l2 : p2.length = 200) (l3 : p3.length = 47)
    (n1 : ∀ c ∈ p1, c ≠ Json.null) (n2 : ∀ c ∈ p2, c ≠ Json.null)
    (n3 : ∀ c ∈ p3, c ≠ Json.null) :
    ∃ chars : List NormChar, chars.length = 447 ∧
      pageLoop upstream = (Except.ok (chars, 3), [1, 2, 3]) := by
  obtain ⟨ns1, hm1, hl1⟩ := mapNormalize_ok p1 n1
  obtain ⟨ns2, hm2, hl2⟩ := mapNormalize_ok p2 n2
  obtain ⟨ns3, hm3, hl3⟩ := mapNormalize_ok p3 n3
  refine ⟨ns1 ++ ns2 ++ ns3, by simp [hl1, hl2, hl3, l1, l2, l3], ?_⟩
  have s1 := pageLoopAux_iterate upstream 200 1 [] .infinity [] p1 ns1 rfl h1 hm1
    (by simp [l1, perPage]) (by norm_num)
  have s2 := pageLoopAux_iterate upstream 199 (1 + 1) ([] ++ ns1)
    (PerTotal.js (Json.num ((([] ++ ns1).length : Int) + (perPage : Int))))
    ([] ++ [1]) p2 ns2
    (by simp [ltPerTotal, jsToNumber, perPage]) h2 hm2
    (by simp [l2, perPage]) (by norm_num)
  have s3 := pageLoopAux_short upstream 198 (1 + 1 + 1) (([] ++ ns1) ++ ns2)
    (PerTotal.js (Json.num (((([] ++ ns1) ++ ns2).length : Int) + (perPage : Int))))
    (([] ++ [1]) ++ [1 + 1]) p3 ns3
    (by simp [ltPerTotal, jsToNumber, perPage]) h3 hm3
    (by simp [l3, perPage])
  have total := (s1.trans (s2.trans s3))
  simpa [pageLoop] using total

/-- C7, witness: a concrete mock upstream with pages of 200, 200 and 47 records. -/
theorem C7_witness :
    ∃ chars : List NormChar, chars.length = 447 ∧
      pageLoop (fun p => if p ≤ 2 then .ok (.arr (List.replicate 200 (Json.obj [])))
                         else .ok (.arr (List.replicate 47 (Json.obj [])))) =
        (Except.ok (chars, 3), [1, 2, 3]) :=
  C7_pagination_normal _
    (List.replicate 200 (Json.obj [])) (List.replicate 200 (Json.obj []))
    (List.replicate 47 (Json.obj []))
    rfl rfl rfl (List.length_replicate 200 _) (List.length_replicate 200 _)
    (List.length_replicate 47 _)
    (by intro c hc; rw [(List.mem_replicate.mp hc).2]; simp)
    (by intro c hc; rw [(List.mem_replicate.mp hc).2]; simp)
    (by intro c hc; rw [(List.mem_replicate.mp hc).2]; simp)

/-! ## C8: pagination hard safety cap -/

/-- C8, confirmed.  Whatever the upstream does — even answering every page with
exactly `pageSize` items, errors, or arbitrary JSON — the loop never fetches a
page number outside 1..200, and its result is independent of the recursion fuel
once the fuel reaches 200: the loop always terminates, stopping by page 200 at
the latest. -/
theorem C8_pagination_cap (upstream : Nat → FetchResult) :
    (∀ q ∈ (pageLoop upstream).2, 1 ≤ q ∧ q ≤ 200) ∧
    (∀ fuel, 200 ≤ fuel → pageLoopAux upstream fuel 1 [] .infinity [] = pageLoop upstream) := by
  constructor
  · exact fun q hq =>
      pageLoopAux_pages_bound upstream 201 1 [] .infinity []
        (by norm_num) (by norm_num) (by simp) q hq
  · intro fuel hfuel
    exact pageLoopAux_fuel_stable upstream fuel 201 1 [] .infinity []
      (by norm_num) (by omega) (by norm_num)

/-- C8, witness: the cap theorem applied to a concrete upstream (page 1 is fetched
and lies in range; extra fuel changes nothing). -/
theorem C8_witness :
    ((1 : Nat) ≤ 1 ∧ (1 : Nat) ≤ 200) ∧
    pageLoopAux (fun _ => FetchResult.ok (.arr [])) 350 1 [] .infinity [] =
      pageLoop (fun _ => FetchResult.ok (.arr [])) :=
  ⟨(C8_pagination_cap (fun _ => FetchResult.ok (.arr []))).1 1 (by decide),
   (C8_pagination_cap (fun _ => FetchResult.ok (.arr []))).2 350 (by norm_num)⟩

/-! ## C9: end-to-end sync scenario -/

/-- C9, confirmed.  With a cold cache, a token endpoint answering
(access_token "abc", expires_in 1800), a traits endpoint answering the one-element
array [(id "t1", name "Fast")], and a characters endpoint whose page 1 holds 5 raw
records (fewer than the page size of 200, so the loop stops at once; later pages
are never consulted), `sync()` reports counts (traits 1, characters 5), writes
exactly the two artifacts `datasets/traits.json` and `datasets/characters.json`,
and performs exactly one metadata upsert, with merge semantics. -/
theorem C9_end_to_end (items : List Json) (rest : Nat → FetchResult)
    (hlen : items.length = 5) (hnn : ∀ c ∈ items, c ≠ Json.null) :
    ∃ chars : List NormChar, chars.length = 5 ∧
      syncGameRef
        { now := 0, tokenCache := none,
          tokenResp := .json (.obj [("access_token", .str "abc"), ("expires_in", .num 1800)]),
          traitsResp := .ok (.arr [.obj [("id", .str "t1"), ("name", .str "Fast")]]),
          charsPage := fun p => if p = 1 then .ok (.arr items) else rest p } =
      { response := .ok (.num 1, 5),
        ops := [SyncOp.storageWrite "datasets/traits.json"
                  (.arr [.obj [("id", .str "t1"), ("name", .str "Fast")]]),
                SyncOp.storageWrite "datasets/characters.json" (charactersPayload chars 1),
                SyncOp.firestoreSet "meta" "datasets" (.num 1) 5 true],
        cache := some { access_token := .str "abc", expiresAt := some 1800000 } } := by
  obtain ⟨ns, hm, hl⟩ := mapNormalize_ok items hnn
  refine ⟨ns, by rw [hl, hlen], ?_⟩
  have hloop := pageLoopAux_short (fun p => if p = 1 then FetchResult.ok (Json.arr items)
      else rest p) 200 1 [] .infinity [] items ns rfl (by simp) hm
      (by simp [hlen, perPage])
  have hpl : (pageLoop (fun p => if p = 1 then FetchResult.ok (Json.arr items) else rest p)).1 =
      Except.ok ([] ++ ns, 1) := by
    rw [pageLoop]
    rw [show (201 : Nat) = 200 + 1 from rfl, hloop]
  have htok : (getAppAccessToken 0 none
      (.json (Json.obj [("access_token", Json.str "abc"), ("expires_in", Json.num 1800)]))).result =
      Except.ok { access_token := Json.str "abc", expires_in := Json.num 1800 } := rfl
  have hcache : (getAppAccessToken 0 none
      (.json (Json.obj [("access_token", Json.str "abc"), ("expires_in", Json.num 1800)]))).cache =
      some { access_token := Json.str "abc", expiresAt := some 1800000 } := rfl
  simp only [syncGameRef, htok, hcache, hpl, traitsCountOf]
  simp [charactersPayload, hl, hlen]

/-- C9, witness: the scenario with five concrete raw records. -/
theorem C9_witness :
    ∃ chars : List NormChar, chars.length = 5 ∧
      syncGameRef
        { now := 0, tokenCache := none,
          tokenResp := .json (.obj [("access_token", .str "abc"), ("expires_in", .num 1800)]),
          traitsResp := .ok (.arr [.obj [("id", .str "t1"), ("name", .str "Fast")]]),
          charsPage := fun p =>
            if p = 1 then .ok (.arr (List.replicate 5 (Json.obj [("id", Json.str "c")])))
            else FetchResult.err 404 } =
      { response := .ok (.num 1, 5),
        ops := [SyncOp.storageWrite "datasets/traits.json"
                  (.arr [.obj [("id", .str "t1"), ("name", .str "Fast")]]),
                SyncOp.storageWrite "datasets/characters.json" (charactersPayload chars 1),
                SyncOp.firestoreSet "meta" "datasets" (.num 1) 5 true],
        cache := some { access_token := .str "abc", expiresAt := some 1800000 } } :=
  C9_end_to_end (List.replicate 5 (Json.obj [("id", Json.str "c")])) (fun _ => FetchResult.err 404)
    (List.length_replicate 5 _)
    (by intro c hc; rw [(List.mem_replicate.mp hc).2]; simp)

/-! ## C10: no persistence effects on early failure -/

/-- C10, confirmed.  Every persistence effect of `syncGameRef` is emitted only
after token acquisition, the traits fetch and the whole character pagination have
succeeded: if any of the three fails, the run reports the error and the effect
list is empty — durable storage and the metadata document are untouched, the
traits artifact included. -/
theorem C10_no_writes_on_failure (env : SyncEnv)
    (h : (getAppAccessToken env.now env.tokenCache env.tokenResp).result.isOk = false
       ∨ (∃ s, env.traitsResp = FetchResult.err s)
       ∨ (pageLoop env.charsPage).1.isOk = false) :
    (syncGameRef env).response.isOk = false ∧ (syncGameRef env).ops = [] := by
  cases htok : (getAppAccessToken env.now env.tokenCache env.tokenResp).result with
  | error e => simp [syncGameRef, htok, Except.isOk, Except.toBool]
  | ok t =>
    cases htr : env.traitsResp with
    | err s => simp [syncGameRef, htok, htr, Except.isOk, Except.toBool]
    | ok traits =>
      cases hpl : (pageLoop env.charsPage).1 with
      | error e => simp [syncGameRef, htok, htr, hpl, Except.isOk, Except.toBool]
      | ok pr =>
        exfalso
        rcases h with h | ⟨s, hs⟩ | h
        · rw [htok] at h
          simp [Except.isOk, Except.toBool] at h
        · exact absurd (hs.symm.trans htr) (by simp)
        · rw [hpl] at h
          simp [Except.isOk, Except.toBool] at h

/-- C10, witness: a failing token exchange leaves the effect list empty. -/
theorem C10_witness :
    (syncGameRef
      { now := 0, tokenCache := none, tokenResp := .httpErr 500,
        traitsResp := .ok .null, charsPage := fun _ => .err 0 }).response.isOk = false ∧
    (syncGameRef
      { now := 0, tokenCache := none, tokenResp := .httpErr 500,
        traitsResp := .ok .null, charsPage := fun _ => .err 0 }).ops = [] :=
  C10_no_writes_on_failure
    { now := 0, tokenCache := none, tokenResp := .httpErr 500,
      traitsResp := .ok .null, charsPage := fun _ => .err 0 }
    (Or.inl rfl)

end SynergyForge
